import Mathlib

/-!
Shallow embedding of `src/objects/backing-store.cc`: the backing-store
allocator for wasm linear memories (address-space accounting, guard-region
layout, retrying allocation, in-place growth, copy-and-grow, the global
registry and the shared-memory attachment list), together with theorems
settling the specification claims.

Machine integers of the source (`uint64_t`, `size_t` on a 64-bit target)
are modelled as `Nat` with explicit reduction modulo `2 ^ 64` exactly where
the source's unsigned arithmetic can wrap.  External collaborators (the
platform page allocator and the garbage collector) are modelled by oracle
lists of outcomes: each attempted page operation consumes the next outcome;
a memory-pressure notification is fire-and-forget, its only modelled effect
being that the following attempt reads the next oracle entry.
-/

namespace BackingStoreModel

/-- `2 ^ 64`, the modulus of the source's `uint64_t` arithmetic. -/
def kUint64Mod : Nat := 18446744073709551616

/-- `kAddressSpaceLimit` for the 64-bit target: 1 TiB + 4 GiB. -/
def kAddressSpaceLimit : Nat := 0x10100000000

/-- `GB` from the source: `1024 * 1024 * 1024`. -/
def GB : Nat := 1024 * 1024 * 1024

/-- `kNegativeGuardSize = 2 * GB`. -/
def kNegativeGuardSize : Nat := 2 * GB

/-- `kFullGuardSize = 10 * GB`. -/
def kFullGuardSize : Nat := 10 * GB

/-- Modelled from the spec: `wasm::kWasmPageSize` (64 KiB), defined in the
wasm limits header which is not among the sources. -/
def kWasmPageSize : Nat := 65536

/-- Modelled from the spec: `wasm::kV8MaxWasmMemoryPages`, the engine's
maximum wasm page count (4 GiB worth of 64 KiB pages), defined in the wasm
limits header which is not among the sources. -/
def kV8MaxWasmMemoryPages : Nat := 65536

/-- `BackingStore::ReserveAddressSpace`: the compare-and-swap loop, run to
completion against a counter value; returns (success, new counter).  A
failed reservation leaves the counter untouched. -/
def ReserveAddressSpace (counter num_bytes : Nat) : Bool × Nat :=
  if kAddressSpaceLimit < counter then (false, counter)
  else if kAddressSpaceLimit - counter < num_bytes then (false, counter)
  else (true, counter + num_bytes)

/-- `BackingStore::ReleaseReservation`: `fetch_sub` on the `uint64_t`
counter, i.e. subtraction modulo `2 ^ 64`. -/
def ReleaseReservation (counter num_bytes : Nat) : Nat :=
  (counter % kUint64Mod + (kUint64Mod - num_bytes % kUint64Mod)) % kUint64Mod

/-- `GetGuardedRegion(buffer_start, byte_length)`: the region starting
`2 GiB` below `buffer_start` (64-bit address arithmetic) of size
`kFullGuardSize`; `byte_length` is not used. -/
def GetGuardedRegion (buffer_start byte_length : Nat) : Nat × Nat :=
  ((buffer_start % kUint64Mod + (kUint64Mod - kNegativeGuardSize)) % kUint64Mod,
   kFullGuardSize)

/-- The fields of a `BackingStore` object that the modelled operations read
or write.  `buffer_start` is the numeric address of the usable region;
`has_shared_anchor` records that `type_specific_data_.shared_wasm_memory_data`
was populated with the anchor node. -/
structure BackingStoreS where
  buffer_start : Nat
  byte_length : Nat
  byte_capacity : Nat
  is_shared : Bool
  is_wasm_memory : Bool
  free_on_destruct : Bool
  has_guard_regions : Bool
  globally_registered : Bool
  has_shared_anchor : Bool

/-- `BackingStore::GrowWasmMemoryInPlace`.  The outcome of the
`SetPermissions` call on `[buffer_start, new_byte_length)` is abstracted as
the boolean oracle `set_permissions_ok`; returns (success, updated store). -/
def GrowWasmMemoryInPlace (set_permissions_ok : Bool) (bs : BackingStoreS)
    (new_byte_length : Nat) : Bool × BackingStoreS :=
  if new_byte_length ≤ bs.byte_length then (true, bs)
  else if bs.byte_capacity < new_byte_length then (false, bs)
  else if set_permissions_ok = false then (false, bs)
  else (true, { bs with byte_length := new_byte_length })

/- ### Wasm memory allocation (`TryAllocateWasmMemory` and callers) -/

/-- `AllocationStatus` from the source (UMA sample values). -/
inductive AllocationStatus where
  | kSuccess
  | kSuccessAfterRetry
  | kAddressSpaceLimitReachedFailure
  | kOtherFailure

/-- The state threaded through a wasm allocation: the process-wide
reservation counter, the `allocation_base` local of the source, and the
oracle lists giving the outcome of each successive call to the platform
page allocator (`AllocatePages` returns an address or null;
`SetPermissions` returns a boolean). -/
structure WasmEnv where
  counter : Nat
  allocation_base : Option Nat
  allocOutcomes : List (Option Nat)
  permOutcomes : List Bool

/-- Attempt/reclamation statistics of one `gc_retry` run: how many times
the function was attempted and how many memory-pressure notifications were
issued. -/
structure PhaseStats where
  attempts : Nat
  gcs : Nat

/-- Result of a `gc_retry` run: overall success, the threaded state, the
`did_retry` flag, and the attempt statistics. -/
structure RetryOut (σ : Type) where
  ok : Bool
  state : σ
  did_retry : Bool
  stats : PhaseStats

/-- The loop body of the source's `gc_retry` lambda: run `fn` up to `fuel`
more times; after every failed attempt a critical memory-pressure
notification is issued (counted in `att`, mirrored by `gcs`) and `did_retry`
is set. -/
def gcRetryGo {σ : Type} (fn : σ → Bool × σ) :
    Nat → σ → Bool → Nat → RetryOut σ
  | 0, s, dr, att => { ok := false, state := s, did_retry := dr, stats := ⟨att, att⟩ }
  | fuel + 1, s, dr, att =>
    match fn s with
    | (true, s') => { ok := true, state := s', did_retry := dr, stats := ⟨att + 1, att⟩ }
    | (false, s') => gcRetryGo fn fuel s' true (att + 1)

/-- `gc_retry(fn)`: up to 3 attempts, reclamation between attempts. -/
def gc_retry {σ : Type} (fn : σ → Bool × σ) (s : σ) (dr : Bool) : RetryOut σ :=
  gcRetryGo fn 3 s dr 0

/-- Phase 1 step: `ReserveAddressSpace(reservation_size)` against the
counter in the environment. -/
def reserveStep (reservation_size : Nat) (e : WasmEnv) : Bool × WasmEnv :=
  let r := ReserveAddressSpace e.counter reservation_size
  (r.1, { e with counter := r.2 })

/-- Phase 2 step: one `AllocatePages` call, consuming the next oracle
outcome (an exhausted oracle behaves as a null return) and storing it in
`allocation_base`. -/
def allocPagesStep (e : WasmEnv) : Bool × WasmEnv :=
  match e.allocOutcomes with
  | [] => (false, { e with allocation_base := none })
  | o :: rest => (o.isSome, { e with allocation_base := o, allocOutcomes := rest })

/-- Phase 3 step: `byte_length == 0 || SetPermissions(...)`; a nonzero
length consumes the next permission oracle outcome. -/
def commitStep (byte_length : Nat) (e : WasmEnv) : Bool × WasmEnv :=
  if byte_length = 0 then (true, e)
  else
    match e.permOutcomes with
    | [] => (false, e)
    | b :: rest => (b, { e with permOutcomes := rest })

/-- Observable outcome of `BackingStore::TryAllocateWasmMemory`: the
returned store (none = empty `unique_ptr`), whether
`FatalProcessOutOfMemory` was reached, the status sample recorded, the
final environment, the computed `reservation_size`, and the per-phase retry
statistics (`none` when the phase was never entered). -/
structure TryAllocOutcome where
  result : Option BackingStoreS
  fatal : Bool
  status : Option AllocationStatus
  env : WasmEnv
  reservation_size : Nat
  phase1 : PhaseStats
  phase2 : Option PhaseStats
  phase3 : Option PhaseStats

/-- The `reservation_size` computed at the head of
`TryAllocateWasmMemory`: the full 10 GiB envelope when guard regions are
in use, otherwise `min(maximum_pages, kV8MaxWasmMemoryPages)` pages. -/
def reservationSizeFor (guards : Bool) (maximum_pages : Nat) : Nat :=
  if guards then kFullGuardSize
  else min maximum_pages kV8MaxWasmMemoryPages * kWasmPageSize

/-- The `byte_capacity` computed at the head of `TryAllocateWasmMemory`:
the engine maximum when guard regions are in use, otherwise the
reservation size. -/
def byteCapacityFor (guards : Bool) (maximum_pages : Nat) : Nat :=
  if guards then kV8MaxWasmMemoryPages * kWasmPageSize
  else reservationSizeFor guards maximum_pages

/-- `BackingStore::TryAllocateWasmMemory`, with
`FLAG_correctness_fuzzer_suppressions` at its default (false). -/
def TryAllocateWasmMemory (guards : Bool) (initial_pages maximum_pages : Nat)
    (shared : Bool) (env : WasmEnv) : TryAllocOutcome :=
  let reservation_size := reservationSizeFor guards maximum_pages
  let byte_capacity := byteCapacityFor guards maximum_pages
  match gc_retry (reserveStep reservation_size) env false with
  | ⟨false, s1, _, st1⟩ =>
    { result := none, fatal := false,
      status := some AllocationStatus.kAddressSpaceLimitReachedFailure,
      env := s1, reservation_size := reservation_size,
      phase1 := st1, phase2 := none, phase3 := none }
  | ⟨true, s1, dr1, st1⟩ =>
    match gc_retry allocPagesStep s1 dr1 with
    | ⟨false, s2, _, st2⟩ =>
      { result := none, fatal := false,
        status := some AllocationStatus.kOtherFailure,
        env := { s2 with counter := ReleaseReservation s2.counter reservation_size },
        reservation_size := reservation_size,
        phase1 := st1, phase2 := some st2, phase3 := none }
    | ⟨true, s2, dr2, st2⟩ =>
      let buffer_start := (s2.allocation_base.getD 0) +
        (if guards then kNegativeGuardSize else 0)
      let byte_length := initial_pages * kWasmPageSize
      match gc_retry (commitStep byte_length) s2 dr2 with
      | ⟨false, s3, _, st3⟩ =>
        { result := none, fatal := true, status := none, env := s3,
          reservation_size := reservation_size,
          phase1 := st1, phase2 := some st2, phase3 := some st3 }
      | ⟨true, s3, dr3, st3⟩ =>
        { result := some
            { buffer_start := buffer_start, byte_length := byte_length,
              byte_capacity := byte_capacity, is_shared := shared,
              is_wasm_memory := true, free_on_destruct := true,
              has_guard_regions := guards, globally_registered := false,
              has_shared_anchor := shared },
          fatal := false,
          status := some (if dr3 then AllocationStatus.kSuccessAfterRetry
                          else AllocationStatus.kSuccess),
          env := s3, reservation_size := reservation_size,
          phase1 := st1, phase2 := some st2, phase3 := some st3 }

/-- Observable outcome of `BackingStore::AllocateWasmMemory`: the returned
store, every status sample recorded across the inner calls, and the final
environment. -/
structure AllocateOutcome where
  result : Option BackingStoreS
  statuses : List AllocationStatus
  env : WasmEnv

/-- `BackingStore::AllocateWasmMemory`: engine page-limit check, a first
`TryAllocateWasmMemory`, and on failure (when the process survived) one
retry with `maximum_pages` lowered to `initial_pages`. -/
def AllocateWasmMemory (guards : Bool) (initial_pages maximum_pages : Nat)
    (shared : Bool) (env : WasmEnv) : AllocateOutcome :=
  if kV8MaxWasmMemoryPages < initial_pages then
    { result := none, statuses := [], env := env }
  else
    let out := TryAllocateWasmMemory guards initial_pages maximum_pages shared env
    match out.result with
    | some bs => { result := some bs, statuses := out.status.toList, env := out.env }
    | none =>
      if out.fatal then
        { result := none, statuses := out.status.toList, env := out.env }
      else if initial_pages < maximum_pages then
        let out2 := TryAllocateWasmMemory guards initial_pages initial_pages shared out.env
        { result := out2.result,
          statuses := out.status.toList ++ out2.status.toList, env := out2.env }
      else
        { result := none, statuses := out.status.toList, env := out.env }

/-- Observable outcome of `BackingStore::CopyWasmMemory`: the returned
store and the `(dst, src, n)` arguments of the `memcpy` call when one was
performed. -/
structure CopyOutcome where
  result : Option BackingStoreS
  copyArgs : Option (Nat × Nat × Nat)
  env : WasmEnv

/-- `BackingStore::CopyWasmMemory`: allocate a new wasm memory of
`new_byte_length / kWasmPageSize` pages (as both initial and maximum),
fail if that fails or the guard-region flags differ, else
`memcpy(new->buffer_start, old->buffer_start, old->byte_length)`. -/
def CopyWasmMemory (guards : Bool) (old : BackingStoreS)
    (new_byte_length : Nat) (env : WasmEnv) : CopyOutcome :=
  let out := AllocateWasmMemory guards (new_byte_length / kWasmPageSize)
    (new_byte_length / kWasmPageSize) old.is_shared env
  match out.result with
  | none => { result := none, copyArgs := none, env := out.env }
  | some nbs =>
    if nbs.has_guard_regions ≠ old.has_guard_regions then
      { result := none, copyArgs := none, env := out.env }
    else
      { result := some nbs,
        copyArgs := some (nbs.buffer_start, old.buffer_start, old.byte_length),
        env := out.env }

/-- Byte-level model of `memcpy` over a flat memory `Nat → Nat`. -/
def memcpy (mem : Nat → Nat) (dst src n : Nat) : Nat → Nat :=
  fun a => if dst ≤ a ∧ a < dst + n then mem (src + (a - dst)) else mem a

/-- The effect of a `CopyWasmMemory` call on the flat memory. -/
def copyEffect (mem : Nat → Nat) (o : CopyOutcome) : Nat → Nat :=
  match o.copyArgs with
  | none => mem
  | some (d, s, n) => memcpy mem d s n

/- ### The global backing-store registry -/

/-- The fields of a `BackingStore` that `GlobalBackingStoreRegistry` reads
or writes; `id` stands for the object's identity (which `shared_ptr` the
weak map entries refer to). -/
structure RegStore where
  id : Nat
  buffer_start : Nat
  globally_registered : Bool

/-- Lookup in the registry map, modelled as an association list from
`buffer_start` keys to store identities (the keys of an `unordered_map` are
unique, which theorems carry as a `Nodup` hypothesis). -/
def regFind : List (Nat × Nat) → Nat → Option Nat
  | [], _ => none
  | (k, v) :: rest, key => if k = key then some v else regFind rest key

/-- Erasure of the entry found for a key (`map_.erase(result)`). -/
def regErase : List (Nat × Nat) → Nat → List (Nat × Nat)
  | [], _ => []
  | (k, v) :: rest, key => if k = key then rest else (k, v) :: regErase rest key

/-- `GlobalBackingStoreRegistry::Register`: a no-op for an
already-registered store; otherwise inserts keyed by `buffer_start` and
sets the flag.  `none` models the `CHECK(result.second)` failure when the
key is already present for a different store. -/
def Register (m : List (Nat × Nat)) (s : RegStore) :
    Option (List (Nat × Nat) × RegStore) :=
  if s.globally_registered then some (m, s)
  else
    match regFind m s.buffer_start with
    | some _ => none
    | none => some ((s.buffer_start, s.id) :: m, { s with globally_registered := true })

/-- `GlobalBackingStoreRegistry::Unregister`: a no-op for an unregistered
store; otherwise erases the store's key (if present) and clears the flag. -/
def Unregister (m : List (Nat × Nat)) (s : RegStore) :
    List (Nat × Nat) × RegStore :=
  if s.globally_registered = false then (m, s)
  else (regErase m s.buffer_start, { s with globally_registered := false })

/-- `GlobalBackingStoreRegistry::Lookup`: find the weak entry for the
address and upgrade it; `alive` tells which store identities are still
live (an expired weak pointer locks to null). -/
def Lookup (alive : Nat → Bool) (m : List (Nat × Nat)) (buffer_start : Nat) :
    Option Nat :=
  match regFind m buffer_start with
  | none => none
  | some id => if alive id then some id else none

/- ### The shared-memory attachment list and growth broadcast -/

/-- One attachment node (`SharedWasmMemoryData` past the anchor): the
owning isolate and the weak global handle to the memory object (`none`
models a null handle whose view was collected); view objects are named by
numeric identities. -/
structure SharedWasmMemoryData where
  isolate : Nat
  memory_object : Option Nat
deriving DecidableEq

/-- Phase A of `BroadcastSharedWasmMemoryGrow`, under the lock: walk the
attachment nodes; collect the memory objects of live attachments owned by
`iso`, and for every other node request an asynchronous grow poll on its
owning isolate.  Returns (collected view handles, signaled isolates). -/
def collectForGrow (iso : Nat) : List SharedWasmMemoryData → List Nat × List Nat
  | [] => ([], [])
  | n :: rest =>
    let r := collectForGrow iso rest
    match n.memory_object with
    | some v => if n.isolate = iso then (v :: r.1, r.2) else (r.1, n.isolate :: r.2)
    | none => (r.1, n.isolate :: r.2)

/-- Replace (or insert) the recorded size of one view: the effect of
`memory_object->update_instances(isolate, new_buffer)` on the view's
reported byte length. -/
def setView : List (Nat × Nat) → Nat → Nat → List (Nat × Nat)
  | [], k, v => [(k, v)]
  | (k', v') :: rest, k, v =>
    if k' = k then (k, v) :: rest else (k', v') :: setView rest k v

/-- Phase B, outside the lock: rebuild every collected view over the grown
region, so each reports the new size. -/
def updateCollected (new_size : Nat) : List Nat → List (Nat × Nat) → List (Nat × Nat)
  | [], vs => vs
  | v :: rest, vs => updateCollected new_size rest (setView vs v new_size)

/-- The state a growth broadcast touches: the attachment nodes of the
store, the reported size of every view (keyed by view identity), and the
multiset of isolates signaled to poll for growth. -/
structure SharedMemState where
  nodes : List SharedWasmMemoryData
  viewSizes : List (Nat × Nat)
  signaled : List Nat

/-- `GlobalBackingStoreRegistry::BroadcastSharedWasmMemoryGrow` for
isolate `iso` growing the store to `new_size`: phase A collects and
signals, phase B rebuilds the collected views. -/
def BroadcastSharedWasmMemoryGrow (iso new_size : Nat) (st : SharedMemState) :
    SharedMemState :=
  let r := collectForGrow iso st.nodes
  { nodes := st.nodes,
    viewSizes := updateCollected new_size r.1 st.viewSizes,
    signaled := st.signaled ++ r.2 }

/- ### Concrete run environments used by witnesses and counterexamples -/

/-- An environment whose page-allocator oracle succeeds immediately:
counter at zero, one successful `AllocatePages`, one successful
`SetPermissions`. -/
def env0 : WasmEnv :=
  { counter := 0, allocation_base := none,
    allocOutcomes := [some 0], permOutcomes := [true] }

/-- An environment whose reservation counter already sits at the ceiling,
so every address-space reservation fails. -/
def envP1 : WasmEnv :=
  { counter := kAddressSpaceLimit, allocation_base := none,
    allocOutcomes := [], permOutcomes := [] }

/-- An environment with address-space headroom whose `AllocatePages`
oracle returns null three times. -/
def envP2 : WasmEnv :=
  { counter := 0, allocation_base := none,
    allocOutcomes := [none, none, none], permOutcomes := [] }

/-- A wasm source store of two pages used by copy-and-grow runs. -/
def oldTwoPages : BackingStoreS :=
  { buffer_start := 4096, byte_length := 131072, byte_capacity := 131072,
    is_shared := false, is_wasm_memory := true, free_on_destruct := true,
    has_guard_regions := false, globally_registered := false,
    has_shared_anchor := false }

/-- The store produced by `AllocateWasmMemory true 1 1 false env0`: one
initial page behind guard regions, capacity at the engine maximum. -/
def bsGuard1 : BackingStoreS :=
  { buffer_start := 2147483648, byte_length := 65536,
    byte_capacity := 4294967296, is_shared := false, is_wasm_memory := true,
    free_on_destruct := true, has_guard_regions := true,
    globally_registered := false, has_shared_anchor := false }

/-- The store produced by `TryAllocateWasmMemory true 3 1 false env0`:
three initial pages although only one page of maximum was requested. -/
def bsGuard3 : BackingStoreS :=
  { buffer_start := 2147483648, byte_length := 196608,
    byte_capacity := 4294967296, is_shared := false, is_wasm_memory := true,
    free_on_destruct := true, has_guard_regions := true,
    globally_registered := false, has_shared_anchor := false }

/-- The unguarded two-page store produced when copying `oldTwoPages` to a
region of the same length. -/
def bsCopy2 : BackingStoreS :=
  { buffer_start := 0, byte_length := 131072, byte_capacity := 131072,
    is_shared := false, is_wasm_memory := true, free_on_destruct := true,
    has_guard_regions := false, globally_registered := false,
    has_shared_anchor := false }

/-- A liveness oracle under which every store identity is still alive. -/
def aliveAll : Nat → Bool := fun _ => true

/-- A not-yet-registered store at address 100 with identity 1. -/
def rs0 : RegStore := { id := 1, buffer_start := 100, globally_registered := false }

/-- The store `rs0` after registration. -/
def rs0reg : RegStore := { id := 1, buffer_start := 100, globally_registered := true }

/-- A shared-memory state with one live attachment of isolate 1 (view 10)
and one live attachment of isolate 2 (view 20), both views reporting 7
bytes. -/
def stShared : SharedMemState :=
  { nodes := [{ isolate := 1, memory_object := some 10 },
              { isolate := 2, memory_object := some 20 }],
    viewSizes := [(10, 7), (20, 7)],
    signaled := [] }

/-- A retry phase ran correctly when it was attempted at most 3 times and
a reclamation request separates consecutive attempts: every failed attempt
is followed by one, so either every attempt failed (`gcs = attempts`) or
the last one succeeded (`gcs + 1 = attempts`). -/
def StatsOk (st : PhaseStats) : Prop :=
  st.attempts ≤ 3 ∧ (st.gcs + 1 = st.attempts ∨ st.gcs = st.attempts)

/- ### Helper lemmas on the retry loop and the allocation pipeline -/

theorem gcRetryGo_stats {σ : Type} (fn : σ → Bool × σ) (fuel : Nat) :
    ∀ (s : σ) (dr : Bool) (att : Nat),
      (gcRetryGo fn fuel s dr att).stats.attempts ≤ att + fuel ∧
      ((gcRetryGo fn fuel s dr att).stats.gcs + 1 =
          (gcRetryGo fn fuel s dr att).stats.attempts ∨
        (gcRetryGo fn fuel s dr att).stats.gcs =
          (gcRetryGo fn fuel s dr att).stats.attempts) := by
  induction fuel with
  | zero => intro s dr att; simp [gcRetryGo]
  | succ n ih =>
    intro s dr att
    rcases hfn : fn s with ⟨ok, s'⟩
    cases ok
    · have h := ih s' true (att + 1)
      simp only [gcRetryGo, hfn]
      exact ⟨by omega, h.2⟩
    · simp [gcRetryGo, hfn]

/-- Every `gc_retry` run satisfies the attempt/reclamation discipline. -/
theorem statsOk_gc_retry {σ : Type} (fn : σ → Bool × σ) (s : σ) (dr : Bool) :
    StatsOk (gc_retry fn s dr).stats := by
  have h := gcRetryGo_stats fn 3 s dr 0
  exact ⟨by simpa [gc_retry] using h.1, by simpa [gc_retry] using h.2⟩

theorem reserveStep_fail (rs : Nat) (e : WasmEnv)
    (h : kAddressSpaceLimit < e.counter + rs) :
    reserveStep rs e = (false, e) := by
  unfold reserveStep ReserveAddressSpace
  split_ifs with h1 h2
  · rfl
  · rfl
  · have hle : e.counter + rs ≤ kAddressSpaceLimit := by
      rw [Nat.add_comm]
      exact Nat.add_le_of_le_sub (Nat.le_of_not_lt h1) (Nat.le_of_not_lt h2)
    exact absurd hle (Nat.not_le_of_lt h)

theorem reserveStep_ok (rs : Nat) (e : WasmEnv)
    (h : e.counter + rs ≤ kAddressSpaceLimit) :
    reserveStep rs e = (true, { e with counter := e.counter + rs }) := by
  unfold reserveStep ReserveAddressSpace
  split_ifs with h1 h2
  · exact absurd (Nat.le_trans (Nat.le_add_right e.counter rs) h)
      (Nat.not_le_of_lt h1)
  · exact absurd (Nat.le_sub_of_add_le (Nat.add_comm e.counter rs ▸ h))
      (Nat.not_le_of_lt h2)
  · rfl

theorem gc_retry_reserve_fail (rs : Nat) (e : WasmEnv) (dr : Bool)
    (h : kAddressSpaceLimit < e.counter + rs) :
    gc_retry (reserveStep rs) e dr = ⟨false, e, true, ⟨3, 3⟩⟩ := by
  simp [gc_retry, gcRetryGo, reserveStep_fail rs e h]

theorem gc_retry_reserve_ok (rs : Nat) (e : WasmEnv) (dr : Bool)
    (h : e.counter + rs ≤ kAddressSpaceLimit) :
    gc_retry (reserveStep rs) e dr =
      ⟨true, { e with counter := e.counter + rs }, dr, ⟨1, 0⟩⟩ := by
  simp [gc_retry, gcRetryGo, reserveStep_ok rs e h]

theorem gc_retry_alloc_fail (e : WasmEnv) (dr : Bool)
    (h : ∀ o ∈ e.allocOutcomes.take 3, o = none) :
    (gc_retry allocPagesStep e dr).ok = false ∧
    (gc_retry allocPagesStep e dr).state.counter = e.counter ∧
    (gc_retry allocPagesStep e dr).stats = ⟨3, 3⟩ := by
  obtain ⟨c, ab, outs, perms⟩ := e
  rcases outs with _ | ⟨a, _ | ⟨b, _ | ⟨d, rest⟩⟩⟩
  · exact ⟨rfl, rfl, rfl⟩
  · obtain rfl := h a (by simp)
    exact ⟨rfl, rfl, rfl⟩
  · obtain rfl := h a (by simp)
    obtain rfl := h b (by simp)
    exact ⟨rfl, rfl, rfl⟩
  · obtain rfl := h a (by simp)
    obtain rfl := h b (by simp)
    obtain rfl := h d (by simp)
    exact ⟨rfl, rfl, rfl⟩

theorem release_add (c n : Nat) (h : c + n < kUint64Mod) :
    ReleaseReservation (c + n) n = c := by
  have hn : n < kUint64Mod := Nat.lt_of_le_of_lt (Nat.le_add_left n c) h
  unfold ReleaseReservation
  rw [Nat.mod_eq_of_lt h, Nat.mod_eq_of_lt hn, Nat.add_assoc,
    Nat.add_sub_cancel' (Nat.le_of_lt hn), Nat.add_mod_right]
  exact Nat.mod_eq_of_lt (Nat.lt_of_le_of_lt (Nat.le_add_right c n) h)

/-- The `reservation_size` field of a `TryAllocateWasmMemory` outcome is
always the value computed at the head of the function. -/
theorem tryAlloc_reservation_size (guards : Bool) (init maxp : Nat)
    (shared : Bool) (env : WasmEnv) :
    (TryAllocateWasmMemory guards init maxp shared env).reservation_size =
      reservationSizeFor guards maxp := by
  rcases h1 : gc_retry (reserveStep (reservationSizeFor guards maxp)) env false
    with ⟨ok1, s1, dr1, st1⟩
  cases ok1
  · simp only [TryAllocateWasmMemory, h1]
  · simp only [TryAllocateWasmMemory, h1]
    rcases h2 : gc_retry allocPagesStep s1 dr1 with ⟨ok2, s2, dr2, st2⟩
    cases ok2
    · simp only [h2]
    · simp only [h2]
      rcases h3 : gc_retry (commitStep (init * kWasmPageSize)) s2 dr2
        with ⟨ok3, s3, dr3, st3⟩
      cases ok3 <;> simp only [h3]

/-- Field values of every store returned by `TryAllocateWasmMemory`. -/
theorem tryAlloc_result_fields (guards : Bool) (init maxp : Nat)
    (shared : Bool) (env : WasmEnv) (bs : BackingStoreS)
    (h : (TryAllocateWasmMemory guards init maxp shared env).result = some bs) :
    bs.byte_length = init * kWasmPageSize ∧
    bs.byte_capacity = byteCapacityFor guards maxp ∧
    bs.has_guard_regions = guards ∧
    bs.is_wasm_memory = true ∧
    bs.is_shared = shared ∧
    bs.has_shared_anchor = shared := by
  rcases h1 : gc_retry (reserveStep (reservationSizeFor guards maxp)) env false
    with ⟨ok1, s1, dr1, st1⟩
  cases ok1
  · simp only [TryAllocateWasmMemory, h1] at h
    exact Option.noConfusion h
  · simp only [TryAllocateWasmMemory, h1] at h
    rcases h2 : gc_retry allocPagesStep s1 dr1 with ⟨ok2, s2, dr2, st2⟩
    cases ok2
    · simp only [h2] at h
      exact Option.noConfusion h
    · simp only [h2] at h
      rcases h3 : gc_retry (commitStep (init * kWasmPageSize)) s2 dr2
        with ⟨ok3, s3, dr3, st3⟩
      cases ok3
      · simp only [h3] at h
        exact Option.noConfusion h
      · simp only [h3] at h
        have hbs := Option.some.inj h
        subst hbs
        exact ⟨rfl, rfl, rfl, rfl, rfl, rfl⟩

/-- Field values of every store returned by `AllocateWasmMemory`: the
entry point enforces the engine page limit, and the capacity comes from
whichever of the two inner calls succeeded. -/
theorem allocate_result_fields (guards : Bool) (init maxp : Nat)
    (shared : Bool) (env : WasmEnv) (bs : BackingStoreS)
    (h : (AllocateWasmMemory guards init maxp shared env).result = some bs) :
    init ≤ kV8MaxWasmMemoryPages ∧
    bs.byte_length = init * kWasmPageSize ∧
    bs.has_guard_regions = guards ∧
    bs.is_wasm_memory = true ∧
    bs.is_shared = shared ∧
    (bs.byte_capacity = byteCapacityFor guards maxp ∨
     bs.byte_capacity = byteCapacityFor guards init) := by
  simp only [AllocateWasmMemory] at h
  by_cases hinit : kV8MaxWasmMemoryPages < init
  · rw [if_pos hinit] at h
    exact absurd h (by simp)
  · rw [if_neg hinit] at h
    rcases hout : (TryAllocateWasmMemory guards init maxp shared env).result
      with _ | bs1
    · by_cases hf : (TryAllocateWasmMemory guards init maxp shared env).fatal = true
      · simp [hout, hf] at h
      · by_cases hm : init < maxp
        · simp only [hout, hf, hm] at h
          simp at h
          have hfields := tryAlloc_result_fields guards init init shared _ bs h
          exact ⟨by omega, hfields.1, hfields.2.2.1, hfields.2.2.2.1,
            hfields.2.2.2.2.1, Or.inr hfields.2.1⟩
        · simp [hout, hf, hm] at h
    · simp only [hout] at h
      have hbs := Option.some.inj h
      subst hbs
      have hfields := tryAlloc_result_fields guards init maxp shared env bs1 hout
      exact ⟨by omega, hfields.1, hfields.2.2.1, hfields.2.2.2.1,
        hfields.2.2.2.2.1, Or.inl hfields.2.1⟩

theorem memcpy_outside (mem : Nat → Nat) (dst src n a : Nat)
    (h : a < dst ∨ dst + n ≤ a) : memcpy mem dst src n a = mem a := by
  unfold memcpy
  rw [if_neg]
  rintro ⟨hle, hlt⟩
  rcases h with h | h
  · exact absurd hle (Nat.not_le_of_lt h)
  · exact absurd hlt (Nat.not_lt_of_le h)

theorem memcpy_inside (mem : Nat → Nat) (dst src n i : Nat)
    (h : i < n) : memcpy mem dst src n (dst + i) = mem (src + i) := by
  unfold memcpy
  rw [if_pos ⟨Nat.le_add_right dst i, Nat.add_lt_add_left h dst⟩,
    Nat.add_sub_cancel_left]

/-- The length of the allocated store never exceeds the computed capacity,
for calls with `initial_pages` within the engine limit and either guard
regions enabled or `initial_pages ≤ maximum_pages`. -/
theorem byteCapacityFor_lower (guards : Bool) (init maxp : Nat)
    (hinit : init ≤ kV8MaxWasmMemoryPages) (h : guards = true ∨ init ≤ maxp) :
    init * kWasmPageSize ≤ byteCapacityFor guards maxp := by
  cases guards
  · rcases h with h | hle
    · exact Bool.noConfusion h
    · unfold byteCapacityFor reservationSizeFor
      rw [if_neg Bool.false_ne_true, if_neg Bool.false_ne_true]
      exact Nat.mul_le_mul_right kWasmPageSize (Nat.le_min.mpr ⟨hle, hinit⟩)
  · unfold byteCapacityFor
    rw [if_pos rfl]
    exact Nat.mul_le_mul_right kWasmPageSize hinit

theorem regFind_eq_none_of_not_mem (m : List (Nat × Nat)) (k : Nat)
    (h : k ∉ m.map Prod.fst) : regFind m k = none := by
  induction m with
  | nil => rfl
  | cons p rest ih =>
    obtain ⟨a, b⟩ := p
    simp only [List.map_cons, List.mem_cons] at h
    push_neg at h
    have hak : a ≠ k := fun hc => h.1 hc.symm
    simp only [regFind, if_neg hak]
    exact ih h.2

theorem regFind_regErase_nodup (m : List (Nat × Nat)) (k : Nat)
    (h : (m.map Prod.fst).Nodup) : regFind (regErase m k) k = none := by
  induction m with
  | nil => rfl
  | cons p rest ih =>
    obtain ⟨a, b⟩ := p
    simp only [List.map_cons, List.nodup_cons] at h
    by_cases hak : a = k
    · simp only [regErase, if_pos hak]
      exact regFind_eq_none_of_not_mem rest k (hak ▸ h.1)
    · simp only [regErase, if_neg hak, regFind, if_neg hak]
      exact ih h.2

theorem regFind_setView_self (vs : List (Nat × Nat)) (k v : Nat) :
    regFind (setView vs k v) k = some v := by
  induction vs with
  | nil => simp [setView, regFind]
  | cons p rest ih =>
    obtain ⟨k', v'⟩ := p
    by_cases hk : k' = k
    · simp [setView, hk, regFind]
    · simp only [setView, if_neg hk, regFind, if_neg hk]
      exact ih

theorem regFind_setView_ne (vs : List (Nat × Nat)) (k v k' : Nat)
    (h : k' ≠ k) :
    regFind (setView vs k v) k' = regFind vs k' := by
  induction vs with
  | nil =>
    simp only [setView, regFind]
    rw [if_neg (fun hc => h hc.symm)]
  | cons p rest ih =>
    obtain ⟨a, b⟩ := p
    by_cases hak : a = k
    · subst hak
      simp only [setView, if_pos rfl, regFind]
      rw [if_neg (fun hc => h hc.symm), if_neg (fun hc => h hc.symm)]
    · simp only [setView, if_neg hak, regFind]
      by_cases hak' : a = k'
      · rw [if_pos hak', if_pos hak']
      · rw [if_neg hak', if_neg hak']
        exact ih

theorem regFind_updateCollected (S : Nat) (l : List Nat) :
    ∀ (vs : List (Nat × Nat)) (v : Nat),
      regFind (updateCollected S l vs) v =
        if v ∈ l then some S else regFind vs v := by
  induction l with
  | nil => intro vs v; simp [updateCollected]
  | cons a t ih =>
    intro vs v
    simp only [updateCollected]
    rw [ih]
    by_cases hvt : v ∈ t
    · simp [hvt]
    · by_cases hva : v = a
      · subst hva
        simp [hvt, regFind_setView_self]
      · simp [hvt, hva, regFind_setView_ne vs a S v hva]

theorem mem_collect_fst (iso : Nat) (nodes : List SharedWasmMemoryData) :
    ∀ n ∈ nodes, n.isolate = iso → ∀ v, n.memory_object = some v →
      v ∈ (collectForGrow iso nodes).1 := by
  induction nodes with
  | nil => intro n hn; cases hn
  | cons m rest ih =>
    intro n hn hiso v hv
    rcases List.mem_cons.mp hn with hn | hn
    · subst hn
      simp [collectForGrow, hv, hiso]
    · have hmem := ih n hn hiso v hv
      rcases hm : m.memory_object with _ | v'
      · simpa [collectForGrow, hm] using hmem
      · by_cases hmi : m.isolate = iso
        · simp [collectForGrow, hm, hmi]
          exact Or.inr hmem
        · simpa [collectForGrow, hm, hmi] using hmem

theorem collect_fst_mem (iso : Nat) (nodes : List SharedWasmMemoryData) :
    ∀ v, v ∈ (collectForGrow iso nodes).1 →
      ∃ n, n ∈ nodes ∧ n.isolate = iso ∧ n.memory_object = some v := by
  induction nodes with
  | nil => intro v hv; simp [collectForGrow] at hv
  | cons m rest ih =>
    intro v hv
    rcases hm : m.memory_object with _ | v'
    · rw [show collectForGrow iso (m :: rest) =
          ((collectForGrow iso rest).1,
            m.isolate :: (collectForGrow iso rest).2) by
          simp [collectForGrow, hm]] at hv
      obtain ⟨n, hn, h1, h2⟩ := ih v hv
      exact ⟨n, List.mem_cons_of_mem m hn, h1, h2⟩
    · by_cases hmi : m.isolate = iso
      · rw [show collectForGrow iso (m :: rest) =
            (v' :: (collectForGrow iso rest).1,
              (collectForGrow iso rest).2) by
            simp [collectForGrow, hm, hmi]] at hv
        rcases List.mem_cons.mp hv with hv | hv
        · exact ⟨m, List.mem_cons_self m rest, hmi, hv ▸ hm⟩
        · obtain ⟨n, hn, h1, h2⟩ := ih v hv
          exact ⟨n, List.mem_cons_of_mem m hn, h1, h2⟩
      · rw [show collectForGrow iso (m :: rest) =
            ((collectForGrow iso rest).1,
              m.isolate :: (collectForGrow iso rest).2) by
            simp [collectForGrow, hm, hmi]] at hv
        obtain ⟨n, hn, h1, h2⟩ := ih v hv
        exact ⟨n, List.mem_cons_of_mem m hn, h1, h2⟩

theorem mem_collect_snd (iso : Nat) (nodes : List SharedWasmMemoryData) :
    ∀ n ∈ nodes, n.isolate ≠ iso → n.isolate ∈ (collectForGrow iso nodes).2 := by
  induction nodes with
  | nil => intro n hn; cases hn
  | cons m rest ih =>
    intro n hn hiso
    rcases List.mem_cons.mp hn with hn | hn
    · subst hn
      rcases hm : n.memory_object with _ | v'
      · simp [collectForGrow, hm]
      · simp [collectForGrow, hm, hiso]
    · have hmem := ih n hn hiso
      rcases hm : m.memory_object with _ | v'
      · simp [collectForGrow, hm]
        exact Or.inr hmem
      · by_cases hmi : m.isolate = iso
        · simpa [collectForGrow, hm, hmi] using hmem
        · simp [collectForGrow, hm, hmi]
          exact Or.inr hmem

/- ### Claim theorems for the counter, the guard region and growth -/

/-- C4: for every counter value `c` and every `n` with `c + n ≤ ceiling`,
`ReserveAddressSpace` succeeds and increases the counter by exactly `n`, and
a subsequent `ReleaseReservation n` returns the counter to `c`; whenever
`c + n` would exceed the ceiling the reservation fails with the counter
unchanged; and from any in-bounds counter the counter never exceeds the
ceiling. -/
theorem reserve_release_spec (c n : Nat) :
    (c + n ≤ kAddressSpaceLimit →
      ReserveAddressSpace c n = (true, c + n) ∧
      ReleaseReservation (c + n) n = c) ∧
    (kAddressSpaceLimit < c + n → ReserveAddressSpace c n = (false, c)) ∧
    (c ≤ kAddressSpaceLimit →
      (ReserveAddressSpace c n).2 ≤ kAddressSpaceLimit) := by
  have hMod : kAddressSpaceLimit < kUint64Mod := by decide
  refine ⟨fun h => ⟨?_, ?_⟩, fun h => ?_, fun h => ?_⟩
  · unfold ReserveAddressSpace
    rw [if_neg (Nat.not_lt.mpr (Nat.le_trans (Nat.le_add_right c n) h)),
      if_neg (Nat.not_lt.mpr (Nat.le_sub_of_add_le (Nat.add_comm c n ▸ h)))]
  · exact release_add c n (Nat.lt_of_le_of_lt h hMod)
  · unfold ReserveAddressSpace
    split_ifs with h1 h2
    · rfl
    · rfl
    · have hcn : c + n ≤ kAddressSpaceLimit := by
        rw [Nat.add_comm]
        exact Nat.add_le_of_le_sub (Nat.le_of_not_lt h1) (Nat.le_of_not_lt h2)
      exact absurd hcn (Nat.not_le_of_lt h)
  · unfold ReserveAddressSpace
    split_ifs with h1 h2
    · exact h
    · exact h
    · show c + n ≤ kAddressSpaceLimit
      rw [Nat.add_comm]
      exact Nat.add_le_of_le_sub (Nat.le_of_not_lt h1) (Nat.le_of_not_lt h2)

/-- C4 witness: a concrete reserve/release round trip at `c = 5`, `n = 7`. -/
theorem reserve_release_spec_witness :
    ReserveAddressSpace 5 7 = (true, 5 + 7) ∧
    ReleaseReservation (5 + 7) 7 = 5 :=
  (reserve_release_spec 5 7).1 (by decide)

/-- C5: for every start address (in particular every page-aligned one) at
least `2 GiB` above zero and below `2 ^ 64`, the guarded envelope begins
exactly `2 GiB` before `buffer_start`, spans exactly `10 GiB`, and does not
depend on the length/capacity argument at all. -/
theorem guarded_region_spec (start len len' : Nat)
    (h1 : 2 * GB ≤ start) (h2 : start < kUint64Mod) :
    (GetGuardedRegion start len).1 = start - 2 * GB ∧
    (GetGuardedRegion start len).2 = 10 * GB ∧
    GetGuardedRegion start len = GetGuardedRegion start len' := by
  refine ⟨?_, rfl, rfl⟩
  show (start % kUint64Mod + (kUint64Mod - kNegativeGuardSize)) % kUint64Mod =
    start - 2 * GB
  have hg : kNegativeGuardSize ≤ start := h1
  have hgM : kNegativeGuardSize ≤ kUint64Mod := by decide
  rw [Nat.mod_eq_of_lt h2, ← Nat.add_sub_assoc hgM start, Nat.sub_add_comm hg,
    Nat.add_mod_right]
  exact Nat.mod_eq_of_lt (Nat.lt_of_le_of_lt (Nat.sub_le start kNegativeGuardSize) h2)

/-- C5 witness: the envelope around `start = 2 ^ 32` with two different
length arguments. -/
theorem guarded_region_spec_witness :
    (GetGuardedRegion 4294967296 0).1 = 4294967296 - 2 * GB ∧
    (GetGuardedRegion 4294967296 0).2 = 10 * GB ∧
    GetGuardedRegion 4294967296 0 = GetGuardedRegion 4294967296 7 :=
  guarded_region_spec 4294967296 0 7 (by decide) (by decide)

/-- C1: for a wasm backing store satisfying the `length ≤ capacity`
invariant, `GrowWasmMemoryInPlace` with `new_length ≤ length` returns
success and changes nothing; with `new_length > capacity` it returns false
and changes nothing; when the permission grant fails it returns false and
changes nothing; otherwise it returns true with `length` updated to
`new_length`. -/
theorem grow_in_place_spec (ok : Bool) (bs : BackingStoreS) (new_len : Nat)
    (hwasm : bs.is_wasm_memory = true)
    (hinv : bs.byte_length ≤ bs.byte_capacity) :
    (new_len ≤ bs.byte_length →
      GrowWasmMemoryInPlace ok bs new_len = (true, bs)) ∧
    (bs.byte_capacity < new_len →
      GrowWasmMemoryInPlace ok bs new_len = (false, bs)) ∧
    (bs.byte_length < new_len → new_len ≤ bs.byte_capacity → ok = false →
      GrowWasmMemoryInPlace ok bs new_len = (false, bs)) ∧
    (bs.byte_length < new_len → new_len ≤ bs.byte_capacity → ok = true →
      GrowWasmMemoryInPlace ok bs new_len =
        (true, { bs with byte_length := new_len })) := by
  unfold GrowWasmMemoryInPlace
  refine ⟨fun h => ?_, fun h => ?_, fun h1 h2 h3 => ?_, fun h1 h2 h3 => ?_⟩
  · rw [if_pos h]
  · rw [if_neg (Nat.not_le_of_lt (Nat.lt_of_le_of_lt hinv h)), if_pos h]
  · rw [if_neg (Nat.not_le_of_lt h1), if_neg (Nat.not_lt.mpr h2), if_pos h3]
  · rw [if_neg (Nat.not_le_of_lt h1), if_neg (Nat.not_lt.mpr h2),
      if_neg (fun hc => Bool.noConfusion (h3.symm.trans hc))]

/-- C1 witness: a concrete wasm store of length 2, capacity 5, exercising
the successful-growth branch at `new_len = 4`. -/
theorem grow_in_place_spec_witness :
    GrowWasmMemoryInPlace true
      { buffer_start := 0, byte_length := 2, byte_capacity := 5,
        is_shared := false, is_wasm_memory := true, free_on_destruct := true,
        has_guard_regions := true, globally_registered := false,
        has_shared_anchor := false } 4 =
    (true,
      { buffer_start := 0, byte_length := 4, byte_capacity := 5,
        is_shared := false, is_wasm_memory := true, free_on_destruct := true,
        has_guard_regions := true, globally_registered := false,
        has_shared_anchor := false }) :=
  (grow_in_place_spec true
    { buffer_start := 0, byte_length := 2, byte_capacity := 5,
      is_shared := false, is_wasm_memory := true, free_on_destruct := true,
      has_guard_regions := true, globally_registered := false,
      has_shared_anchor := false } 4 rfl (by decide)).2.2.2
    (by decide) (by decide) rfl

/-- C3: every retryable allocation phase is attempted at most 3 times with
a reclamation request between attempts; when phase 1 (address-space
reservation) fails across all retries the allocation records
address-space exhaustion and returns empty with the whole environment (in
particular the reservation counter) unchanged; when phase 2 (page
reservation) fails across all retries the phase-1 reservation is released
(counter restored) and `kOtherFailure` is recorded with an empty result. -/
theorem alloc_retry_phases_spec (guards : Bool) (init maxp : Nat)
    (shared : Bool) (env : WasmEnv) :
    (StatsOk (TryAllocateWasmMemory guards init maxp shared env).phase1 ∧
     (∀ st, (TryAllocateWasmMemory guards init maxp shared env).phase2 = some st →
        StatsOk st) ∧
     (∀ st, (TryAllocateWasmMemory guards init maxp shared env).phase3 = some st →
        StatsOk st)) ∧
    (kAddressSpaceLimit < env.counter + reservationSizeFor guards maxp →
      TryAllocateWasmMemory guards init maxp shared env =
        { result := none, fatal := false,
          status := some AllocationStatus.kAddressSpaceLimitReachedFailure,
          env := env, reservation_size := reservationSizeFor guards maxp,
          phase1 := ⟨3, 3⟩, phase2 := none, phase3 := none }) ∧
    (env.counter + reservationSizeFor guards maxp ≤ kAddressSpaceLimit →
     (∀ o ∈ env.allocOutcomes.take 3, o = none) →
      (TryAllocateWasmMemory guards init maxp shared env).result = none ∧
      (TryAllocateWasmMemory guards init maxp shared env).status =
        some AllocationStatus.kOtherFailure ∧
      (TryAllocateWasmMemory guards init maxp shared env).env.counter = env.counter ∧
      (TryAllocateWasmMemory guards init maxp shared env).phase2 = some ⟨3, 3⟩) := by
  refine ⟨?_, fun h => ?_, fun h1 h2 => ?_⟩
  · rcases hr1 : gc_retry (reserveStep (reservationSizeFor guards maxp)) env false
      with ⟨ok1, s1, dr1, st1⟩
    have hs1 : StatsOk st1 := by
      have hs := statsOk_gc_retry (reserveStep (reservationSizeFor guards maxp)) env false
      rw [hr1] at hs
      exact hs
    cases ok1
    · simp only [TryAllocateWasmMemory, hr1]
      exact ⟨hs1, fun st hst => Option.noConfusion hst,
        fun st hst => Option.noConfusion hst⟩
    · simp only [TryAllocateWasmMemory, hr1]
      rcases hr2 : gc_retry allocPagesStep s1 dr1 with ⟨ok2, s2, dr2, st2⟩
      have hs2 : StatsOk st2 := by
        have hs := statsOk_gc_retry allocPagesStep s1 dr1
        rw [hr2] at hs
        exact hs
      cases ok2
      · simp only [hr2]
        exact ⟨hs1, fun st hst => by cases hst; exact hs2,
          fun st hst => Option.noConfusion hst⟩
      · simp only [hr2]
        rcases hr3 : gc_retry (commitStep (init * kWasmPageSize)) s2 dr2
          with ⟨ok3, s3, dr3, st3⟩
        have hs3 : StatsOk st3 := by
          have hs := statsOk_gc_retry (commitStep (init * kWasmPageSize)) s2 dr2
          rw [hr3] at hs
          exact hs
        cases ok3 <;> simp only [hr3] <;>
          exact ⟨hs1, fun st hst => by cases hst; exact hs2,
            fun st hst => by cases hst; exact hs3⟩
  · simp only [TryAllocateWasmMemory, gc_retry_reserve_fail _ _ _ h]
  · have hok := gc_retry_reserve_ok (reservationSizeFor guards maxp) env false h1
    simp only [TryAllocateWasmMemory, hok]
    rcases hal : gc_retry allocPagesStep
        { env with counter := env.counter + reservationSizeFor guards maxp } false
      with ⟨ok2, s2, dr2, st2⟩
    have hfail := gc_retry_alloc_fail
      { env with counter := env.counter + reservationSizeFor guards maxp } false
      (by simpa using h2)
    rw [hal] at hfail
    have hok2 : ok2 = false := hfail.1
    have hcnt : s2.counter = env.counter + reservationSizeFor guards maxp := hfail.2.1
    have hst2 : st2 = ⟨3, 3⟩ := hfail.2.2
    subst hok2
    simp only [hal]
    refine ⟨by trivial, by trivial, ?_, by rw [hst2]⟩
    show ReleaseReservation s2.counter (reservationSizeFor guards maxp) = env.counter
    rw [hcnt]
    refine release_add env.counter (reservationSizeFor guards maxp) ?_
    have hMod : kAddressSpaceLimit < kUint64Mod := by decide
    exact Nat.lt_of_le_of_lt h1 hMod

/-- C3 witness: a run with the counter at the ceiling exercising the
phase-1 failure path, and a run with three null page allocations
exercising the phase-2 failure path. -/
theorem alloc_retry_phases_spec_witness :
    TryAllocateWasmMemory true 1 1 false envP1 =
      { result := none, fatal := false,
        status := some AllocationStatus.kAddressSpaceLimitReachedFailure,
        env := envP1, reservation_size := reservationSizeFor true 1,
        phase1 := ⟨3, 3⟩, phase2 := none, phase3 := none } ∧
    (TryAllocateWasmMemory false 1 1 false envP2).status =
      some AllocationStatus.kOtherFailure ∧
    (TryAllocateWasmMemory false 1 1 false envP2).env.counter = envP2.counter :=
  ⟨(alloc_retry_phases_spec true 1 1 false envP1).2.1 (by decide),
   ((alloc_retry_phases_spec false 1 1 false envP2).2.2 (by decide) (by decide)).2.1,
   ((alloc_retry_phases_spec false 1 1 false envP2).2.2 (by decide) (by decide)).2.2.1⟩

/-- C10: `AllocateWasmMemory` with `initial_pages` beyond the engine page
limit returns null immediately: no reservation, no page operation, no
status sample — the environment is returned untouched. -/
theorem allocate_rejects_oversize_spec (guards : Bool) (init maxp : Nat)
    (shared : Bool) (env : WasmEnv) (h : kV8MaxWasmMemoryPages < init) :
    AllocateWasmMemory guards init maxp shared env =
      { result := none, statuses := [], env := env } := by
  simp [AllocateWasmMemory, h]

/-- C10 witness: one page above the engine limit. -/
theorem allocate_rejects_oversize_spec_witness :
    AllocateWasmMemory true 65537 65537 false env0 =
      { result := none, statuses := [], env := env0 } :=
  allocate_rejects_oversize_spec true 65537 65537 false env0 (by decide)

/-- C2 counterexample: the allocation entry point accepts
`initial_pages = 2, maximum_pages = 1` on the unguarded path and returns a
store whose length (two pages) exceeds its capacity (one page), so the
claimed invariant fails as stated. -/
theorem alloc_length_le_capacity_cex :
    (AllocateWasmMemory false 2 1 false env0).result =
      some { buffer_start := 0, byte_length := 131072, byte_capacity := 65536,
             is_shared := false, is_wasm_memory := true,
             free_on_destruct := true, has_guard_regions := false,
             globally_registered := false, has_shared_anchor := false } ∧
    ¬ (131072 : Nat) ≤ 65536 :=
  ⟨rfl, by decide⟩

/-- C2 amended: for every allocation through the entry point with
`initial_pages ≤ maximum_pages` (or with guard regions enabled, where the
capacity is the engine maximum), the resulting store satisfies
`length ≤ capacity`; and every `GrowWasmMemoryInPlace` call preserves the
invariant. -/
theorem alloc_length_le_capacity_amended :
    (∀ (guards : Bool) (init maxp : Nat) (shared : Bool) (env : WasmEnv)
       (bs : BackingStoreS),
       guards = true ∨ init ≤ maxp →
       (AllocateWasmMemory guards init maxp shared env).result = some bs →
       bs.byte_length ≤ bs.byte_capacity) ∧
    (∀ (ok : Bool) (bs : BackingStoreS) (new_len : Nat),
       bs.byte_length ≤ bs.byte_capacity →
       (GrowWasmMemoryInPlace ok bs new_len).2.byte_length ≤
         (GrowWasmMemoryInPlace ok bs new_len).2.byte_capacity) := by
  constructor
  · intro guards init maxp shared env bs hcase h
    obtain ⟨hinit, hlen, -, -, -, hcap⟩ := allocate_result_fields _ _ _ _ _ _ h
    rw [hlen]
    rcases hcap with hcap | hcap <;> rw [hcap]
    · exact byteCapacityFor_lower guards init maxp hinit hcase
    · exact byteCapacityFor_lower guards init init hinit
        (Or.inr (Nat.le_refl init))
  · intro ok bs new_len hinv
    unfold GrowWasmMemoryInPlace
    split_ifs with g1 g2 g3
    · exact hinv
    · exact hinv
    · exact hinv
    · exact Nat.le_of_not_lt g2

/-- C2 witness: the one-page guarded allocation satisfies the invariant. -/
theorem alloc_length_le_capacity_amended_witness :
    bsGuard1.byte_length ≤ bsGuard1.byte_capacity :=
  alloc_length_le_capacity_amended.1 true 1 1 false env0 bsGuard1
    (Or.inl rfl) (by rfl)

/-- C9: on the guard-region path `TryAllocateWasmMemory` always reserves
exactly `kFullGuardSize` (10 GiB) of address space and every store it
returns has capacity equal to the engine maximum
(`kV8MaxWasmMemoryPages * kWasmPageSize`), independent of the requested
`maximum_pages`; consequently in-place growth (with the permission grant
succeeding) succeeds for any length up to the engine maximum, including
lengths beyond the requested maximum. -/
theorem guarded_capacity_engine_max_spec (init maxp : Nat) (shared : Bool)
    (env : WasmEnv) :
    (TryAllocateWasmMemory true init maxp shared env).reservation_size =
      kFullGuardSize ∧
    (∀ bs, (TryAllocateWasmMemory true init maxp shared env).result = some bs →
      bs.byte_capacity = kV8MaxWasmMemoryPages * kWasmPageSize ∧
      (∀ new_len, bs.byte_length < new_len →
        new_len ≤ kV8MaxWasmMemoryPages * kWasmPageSize →
        GrowWasmMemoryInPlace true bs new_len =
          (true, { bs with byte_length := new_len }))) := by
  constructor
  · rw [tryAlloc_reservation_size]
    unfold reservationSizeFor
    simp
  · intro bs h
    obtain ⟨-, hcap, -, -, -, -⟩ := tryAlloc_result_fields _ _ _ _ _ _ h
    have hcap' : bs.byte_capacity = kV8MaxWasmMemoryPages * kWasmPageSize := by
      rw [hcap]
      unfold byteCapacityFor
      simp
    refine ⟨hcap', fun new_len hgt hle => ?_⟩
    unfold GrowWasmMemoryInPlace
    rw [if_neg (Nat.not_le_of_lt hgt),
      if_neg (Nat.not_lt.mpr (hcap' ▸ hle)),
      if_neg (fun hc => Bool.noConfusion hc)]

/-- C9 witness: a guarded allocation requesting a one-page maximum still
has the engine-maximum capacity, and grows in place to four pages. -/
theorem guarded_capacity_engine_max_spec_witness :
    bsGuard3.byte_capacity = kV8MaxWasmMemoryPages * kWasmPageSize ∧
    GrowWasmMemoryInPlace true bsGuard3 262144 =
      (true, { bsGuard3 with byte_length := 262144 }) :=
  ⟨((guarded_capacity_engine_max_spec 3 1 false env0).2 bsGuard3 (by rfl)).1,
   ((guarded_capacity_engine_max_spec 3 1 false env0).2 bsGuard3 (by rfl)).2
     262144 (by decide) (by decide)⟩

/-- C6 counterexample: with `new_byte_length` (one page) below the source
length (two pages) — the case excluded only by a debug assertion — the
code passes the full old length to `memcpy`, not
`min(old_length, new_length)`. -/
theorem copy_wasm_memory_cex :
    (CopyWasmMemory false oldTwoPages 65536 env0).copyArgs =
      some (0, 4096, 131072) ∧
    ¬ (131072 : Nat) = min 131072 65536 :=
  ⟨rfl, by decide⟩

/-- C6 amended: for every `new_byte_length` that is a multiple of the wasm
page size and at least `old.byte_length` (the function's asserted
precondition), `CopyWasmMemory` allocates a fresh managed region of exactly
`new_byte_length`, fails when the new region's guard flag differs from the
source's, copies exactly `min(old_length, new_length) = old_length` bytes
from the old region to the new one, and modifies no byte outside the
destination range (so the old region, being freshly disjoint, is left
unmodified). -/
theorem copy_wasm_memory_amended (guards : Bool) (old : BackingStoreS)
    (new_len : Nat) (env : WasmEnv) (mem : Nat → Nat)
    (hpage : new_len % kWasmPageSize = 0) (hge : old.byte_length ≤ new_len) :
    (old.has_guard_regions ≠ guards →
      (CopyWasmMemory guards old new_len env).result = none) ∧
    (∀ nbs, (CopyWasmMemory guards old new_len env).result = some nbs →
      nbs.byte_length = new_len ∧ nbs.is_wasm_memory = true ∧
      nbs.has_guard_regions = old.has_guard_regions ∧
      (CopyWasmMemory guards old new_len env).copyArgs =
        some (nbs.buffer_start, old.buffer_start, old.byte_length) ∧
      old.byte_length = min old.byte_length new_len ∧
      (∀ a, a < nbs.buffer_start ∨ nbs.buffer_start + old.byte_length ≤ a →
        copyEffect mem (CopyWasmMemory guards old new_len env) a = mem a) ∧
      (∀ i, i < old.byte_length →
        copyEffect mem (CopyWasmMemory guards old new_len env)
            (nbs.buffer_start + i) =
          mem (old.buffer_start + i))) := by
  rcases hres : (AllocateWasmMemory guards (new_len / kWasmPageSize)
      (new_len / kWasmPageSize) old.is_shared env).result with _ | bs1
  · constructor
    · intro hne
      simp only [CopyWasmMemory, hres]
    · intro nbs h
      simp only [CopyWasmMemory, hres] at h
      exact Option.noConfusion h
  · obtain ⟨-, hlen, hguard, hwasm, -, -⟩ := allocate_result_fields _ _ _ _ _ _ hres
    constructor
    · intro hne
      simp only [CopyWasmMemory, hres]
      rw [if_pos (by rw [hguard]; exact fun hcontra => hne hcontra.symm)]
    · intro nbs h
      simp only [CopyWasmMemory, hres] at h
      by_cases hflag : bs1.has_guard_regions ≠ old.has_guard_regions
      · rw [if_pos hflag] at h
        exact absurd h (by simp)
      · rw [if_neg hflag] at h
        have hbs : bs1 = nbs := by
          have := Option.some.inj h
          simpa using this
        subst hbs
        push_neg at hflag
        have hcopy : (CopyWasmMemory guards old new_len env).copyArgs =
            some (bs1.buffer_start, old.buffer_start, old.byte_length) := by
          simp only [CopyWasmMemory, hres]
          rw [if_neg (by intro hc; exact hc hflag)]
        refine ⟨?_, hwasm, hflag, hcopy, (Nat.min_eq_left hge).symm, ?_, ?_⟩
        · rw [hlen]
          exact Nat.div_mul_cancel (Nat.dvd_of_mod_eq_zero hpage)
        · intro a ha
          unfold copyEffect
          rw [hcopy]
          exact memcpy_outside mem bs1.buffer_start old.buffer_start
            old.byte_length a ha
        · intro i hi
          unfold copyEffect
          rw [hcopy]
          exact memcpy_inside mem bs1.buffer_start old.buffer_start
            old.byte_length i hi

/-- C6 witness: copying the two-page unguarded store into a fresh
two-page region; the copy arguments cover exactly the old length and the
byte at destination offset 5 now reads the source byte at offset 5. -/
theorem copy_wasm_memory_amended_witness :
    (CopyWasmMemory false oldTwoPages 131072 env0).copyArgs =
      some (bsCopy2.buffer_start, oldTwoPages.buffer_start,
        oldTwoPages.byte_length) ∧
    copyEffect (fun a => a) (CopyWasmMemory false oldTwoPages 131072 env0)
      (bsCopy2.buffer_start + 5) = oldTwoPages.buffer_start + 5 := by
  have h := (copy_wasm_memory_amended false oldTwoPages 131072 env0
    (fun a => a) (by decide) (by decide)).2 bsCopy2 (by rfl)
  exact ⟨h.2.2.2.1, h.2.2.2.2.2.2 5 (by decide)⟩

/-- C7: for a live store in a consistent registry (registered stores are
keyed, unregistered stores' addresses are absent; map keys unique),
`Register` followed by `Lookup` on the store's start address returns that
same store, and `Unregister` followed by `Lookup` returns not-found;
moreover `Register` of an already-registered store and `Unregister` of an
unregistered store change nothing. -/
theorem registry_register_lookup_spec (m : List (Nat × Nat)) (s : RegStore)
    (alive : Nat → Bool) (halive : alive s.id = true)
    (hnodup : (m.map Prod.fst).Nodup)
    (hreg : s.globally_registered = true → regFind m s.buffer_start = some s.id)
    (hunreg : s.globally_registered = false → regFind m s.buffer_start = none) :
    (∀ m' s', Register m s = some (m', s') →
      Lookup alive m' s'.buffer_start = some s.id ∧
      Lookup alive (Unregister m' s').1 s'.buffer_start = none) ∧
    (s.globally_registered = true → Register m s = some (m, s)) ∧
    (s.globally_registered = false → Unregister m s = (m, s)) := by
  refine ⟨?_, fun ht => by simp [Register, ht], fun hf => by simp [Unregister, hf]⟩
  intro m' s' hr
  rcases hflag : s.globally_registered with _ | _
  · simp only [Register, hflag, Bool.false_eq_true, if_false,
      hunreg hflag] at hr
    simp only [Option.some.injEq, Prod.mk.injEq] at hr
    obtain ⟨hm, hs⟩ := hr
    subst hm
    subst hs
    constructor
    · simp [Lookup, regFind, halive]
    · simp [Unregister, regErase, Lookup, hunreg hflag]
  · simp only [Register, hflag, if_true] at hr
    simp only [Option.some.injEq, Prod.mk.injEq] at hr
    obtain ⟨hm, hs⟩ := hr
    subst hm
    subst hs
    constructor
    · simp [Lookup, hreg hflag, halive]
    · simp [Unregister, hflag, Lookup,
        regFind_regErase_nodup m s.buffer_start hnodup]

/-- C7 witness: registering the fresh store `rs0` in an empty registry,
looking it up, then unregistering and looking up again. -/
theorem registry_register_lookup_spec_witness :
    Lookup aliveAll [(100, 1)] rs0reg.buffer_start = some rs0.id ∧
    Lookup aliveAll (Unregister [(100, 1)] rs0reg).1 rs0reg.buffer_start = none :=
  (registry_register_lookup_spec [] rs0 aliveAll rfl (by simp)
    (fun hc => by cases hc) (fun _ => rfl)).1 [(100, 1)] rs0reg rfl

/-- C8: after broadcasting growth to size `S` for isolate `iso`, the
attachment list is unchanged; every live attachment owned by `iso` has its
view rebuilt to report `S`; every attachment owned by another isolate has
that isolate signaled to poll for growth asynchronously; and any view not
belonging to a live attachment of `iso` keeps its previous reported size. -/
theorem broadcast_grow_spec (iso S : Nat) (st : SharedMemState) :
    (BroadcastSharedWasmMemoryGrow iso S st).nodes = st.nodes ∧
    (∀ n ∈ st.nodes, n.isolate = iso → ∀ v, n.memory_object = some v →
      regFind (BroadcastSharedWasmMemoryGrow iso S st).viewSizes v = some S) ∧
    (∀ n ∈ st.nodes, n.isolate ≠ iso →
      n.isolate ∈ (BroadcastSharedWasmMemoryGrow iso S st).signaled) ∧
    (∀ v, (∀ n ∈ st.nodes, ¬(n.isolate = iso ∧ n.memory_object = some v)) →
      regFind (BroadcastSharedWasmMemoryGrow iso S st).viewSizes v =
        regFind st.viewSizes v) := by
  refine ⟨rfl, ?_, ?_, ?_⟩
  · intro n hn hiso v hv
    have hmem := mem_collect_fst iso st.nodes n hn hiso v hv
    show regFind (updateCollected S (collectForGrow iso st.nodes).1 st.viewSizes) v
      = some S
    rw [regFind_updateCollected, if_pos hmem]
  · intro n hn hiso
    have hmem := mem_collect_snd iso st.nodes n hn hiso
    show n.isolate ∈ st.signaled ++ (collectForGrow iso st.nodes).2
    exact List.mem_append_right _ hmem
  · intro v hnone
    have hnot : v ∉ (collectForGrow iso st.nodes).1 := by
      intro hv
      obtain ⟨n, hn, h1, h2⟩ := collect_fst_mem iso st.nodes v hv
      exact hnone n hn ⟨h1, h2⟩
    show regFind (updateCollected S (collectForGrow iso st.nodes).1 st.viewSizes) v
      = regFind st.viewSizes v
    rw [regFind_updateCollected, if_neg hnot]

/-- C8 witness: broadcasting growth to 99 bytes for isolate 1 over
`stShared` updates view 10 to 99, signals isolate 2, and leaves view 20 at
its old size. -/
theorem broadcast_grow_spec_witness :
    regFind (BroadcastSharedWasmMemoryGrow 1 99 stShared).viewSizes 10 =
      some 99 ∧
    (2 : Nat) ∈ (BroadcastSharedWasmMemoryGrow 1 99 stShared).signaled ∧
    regFind (BroadcastSharedWasmMemoryGrow 1 99 stShared).viewSizes 20 =
      regFind stShared.viewSizes 20 :=
  ⟨(broadcast_grow_spec 1 99 stShared).2.1
      { isolate := 1, memory_object := some 10 } (by decide) rfl 10 rfl,
   (broadcast_grow_spec 1 99 stShared).2.2.1
      { isolate := 2, memory_object := some 20 } (by decide) (by decide),
   (broadcast_grow_spec 1 99 stShared).2.2.2 20 (by decide)⟩

end BackingStoreModel
